import Mathlib

/-!
A shallow embedding in Lean 4 of `whitenoise/base.py` (classes `Redirect`,
`StaticFile`, `WhiteNoise`) together with the slices of the Python runtime
the module leans on: `time.gmtime`, `email.utils.formatdate`,
`email.utils.parsedate`, `wsgiref.headers.Headers`, and the `\bgzip\b`
regular-expression search.  Filesystem access (`os.stat`, `os.path.isfile`)
is abstracted into an explicit `FS` record, and the result of `os.walk` is
passed in as the list of relative file paths it discovers.  Machine
integers do not occur; Python integers are `Nat`/`Int`.
-/

namespace WhiteNoiseModel

/-! ## String primitives

Python string operations, written over `String.data` (plain `List Char`
recursion) so that every definition evaluates by kernel reduction.  Header
values and names are ASCII, so ASCII case-mapping matches Python's
`str.lower` on every string the module handles. -/

def asciiLowerChar (c : Char) : Char :=
  if 'A' ≤ c && c ≤ 'Z' then Char.ofNat (c.toNat + 32) else c

/-- `s.lower()` (ASCII). -/
def strLower (s : String) : String := ⟨s.data.map asciiLowerChar⟩

/-- `s.endswith(t)`. -/
def strEndsWith (s t : String) : Bool := t.data.isSuffixOf s.data

/-- `s.startswith(t)`. -/
def strStartsWith (s t : String) : Bool := t.data.isPrefixOf s.data

/-- `s[:n]` for `0 ≤ n` (Python's `s[:-k]` is `strTake s (s.length - k)`,
with the clamping at zero both share). -/
def strTake (s : String) (n : Nat) : String := ⟨s.data.take n⟩

/-- `s.strip('/')`. -/
def stripSlashes (s : String) : String :=
  ⟨((s.data.dropWhile (· == '/')).reverse.dropWhile (· == '/')).reverse⟩

/-- `int(s)` restricted to plain digit strings (stricter than Python,
which also accepts signs and surrounding whitespace). -/
def strToNat? (s : String) : Option Nat :=
  if s.data ≠ [] && s.data.all Char.isDigit then
    some (s.data.foldl (fun n c => n * 10 + (c.toNat - 48)) 0)
  else none

/-- `s.split(sep)` for a one-character separator; keeps empty fields,
like Python's `str.split` with an argument. -/
def splitChar (s : String) (sep : Char) : List String :=
  (s.data.foldr
    (fun c acc =>
      if c == sep then [] :: acc
      else match acc with
        | [] => [[c]]
        | t :: ts => (c :: t) :: ts)
    [[]]).map String.mk

/-- `s.split()`: split on whitespace runs, dropping empty fields. -/
def wsSplit (s : String) : List String :=
  ((s.data.foldr
      (fun c acc =>
        if c.isWhitespace then [] :: acc
        else match acc with
          | [] => [[c]]
          | t :: ts => (c :: t) :: ts)
      []).filter (· ≠ [])).map String.mk

/-! ## Time: `time.struct_time`, `time.gmtime`, `email.utils.formatdate`

`time.gmtime` returns a 9-field `struct_time`
`(tm_year, tm_mon, tm_mday, tm_hour, tm_min, tm_sec, tm_wday, tm_yday, tm_isdst)`
which Python compares with plain tuples lexicographically (a `struct_time`
is a tuple subtype).  `email.utils.parsedate` returns a plain 9-tuple whose
last three components are always `(0, 1, -1)`.  Both are modelled by
`TimeTuple`.  File modification times are whole seconds since the Unix
epoch (`Nat`); `gmtime` and `formatdate` both truncate fractional seconds,
so sub-second precision is irrelevant to the embedded code. -/

structure TimeTuple where
  tm_year : Int
  tm_mon : Int
  tm_mday : Int
  tm_hour : Int
  tm_min : Int
  tm_sec : Int
  tm_wday : Int
  tm_yday : Int
  tm_isdst : Int
deriving DecidableEq, Repr

/-- The 9 fields in Python's tuple order. -/
def TimeTuple.toList (t : TimeTuple) : List Int :=
  [t.tm_year, t.tm_mon, t.tm_mday, t.tm_hour, t.tm_min, t.tm_sec,
   t.tm_wday, t.tm_yday, t.tm_isdst]

/-- Python's `>=` on same-length tuples of ints: lexicographic. -/
def lexGE : List Int → List Int → Bool
  | [], [] => true
  | [], _ :: _ => false
  | _ :: _, [] => true
  | a :: as, b :: bs => if a > b then true else if a < b then false else lexGE as bs

/-- `parsed_tuple >= mtime_tuple` as executed by
`parsedate(last_requested) >= self.mtime_tuple` when parsing succeeded. -/
def tupleGE (a b : TimeTuple) : Bool :=
  lexGE a.toList b.toList

/-- Days-from-civil (inverse of the Gregorian conversion), day 0 = 1970-01-01.
Only used for years ≥ 1970, where every `Nat` subtraction below is exact. -/
def daysFromCivil (y m d : Nat) : Nat :=
  let y' := if m ≤ 2 then y - 1 else y
  let era := y' / 400
  let yoe := y' % 400
  let mp := if m > 2 then m - 3 else m + 9
  let doy := (153 * mp + 2) / 5 + d - 1
  let doe := yoe * 365 + yoe / 4 - yoe / 100 + doy
  era * 146097 + doe - 719468

/-- Civil-from-days: Gregorian date of day `z` (day 0 = 1970-01-01). -/
def civilFromDays (z : Nat) : Nat × Nat × Nat :=
  let z' := z + 719468
  let era := z' / 146097
  let doe := z' % 146097
  let yoe := (doe - doe / 1460 + doe / 36524 - doe / 146096) / 365
  let y := yoe + era * 400
  let doy := doe - (365 * yoe + yoe / 4 - yoe / 100)
  let mp := (5 * doy + 2) / 153
  let d := doy - (153 * mp + 2) / 5 + 1
  let m := if mp < 10 then mp + 3 else mp - 9
  (if m ≤ 2 then y + 1 else y, m, d)

/-- `time.gmtime(t)` for `t : Nat` seconds since the epoch.  `tm_wday` has
Monday = 0 (1970-01-01 was a Thursday, index 3), `tm_yday` is 1-based,
`tm_isdst = 0` for UTC. -/
def gmtime (t : Nat) : TimeTuple :=
  let days := t / 86400
  let secs := t % 86400
  let ymd := civilFromDays days
  { tm_year := Int.ofNat ymd.1, tm_mon := Int.ofNat ymd.2.1, tm_mday := Int.ofNat ymd.2.2
    tm_hour := Int.ofNat (secs / 3600), tm_min := Int.ofNat (secs % 3600 / 60)
    tm_sec := Int.ofNat (secs % 60)
    tm_wday := Int.ofNat ((days + 3) % 7)
    tm_yday := Int.ofNat ((days - daysFromCivil ymd.1 1 1) + 1)
    tm_isdst := 0 }

def dayNames : List String := ["Mon", "Tue", "Wed", "Thu", "Fri", "Sat", "Sun"]

def monthNames : List String :=
  ["Jan", "Feb", "Mar", "Apr", "May", "Jun", "Jul", "Aug", "Sep", "Oct", "Nov", "Dec"]

/-- Zero-pad a natural number to (at least) two digits. -/
def pad2 (n : Nat) : String :=
  if n < 10 then "0" ++ toString n else toString n

/-- Zero-pad a natural number to (at least) four digits (`%04d`). -/
def pad4 (n : Nat) : String :=
  if n < 10 then "000" ++ toString n
  else if n < 100 then "00" ++ toString n
  else if n < 1000 then "0" ++ toString n
  else toString n

/-- `email.utils.formatdate(t, usegmt=True)`:
`"Www, dd Mmm yyyy hh:mm:ss GMT"` built from `time.gmtime(t)`. -/
def formatdate (t : Nat) : String :=
  let g := gmtime t
  let wd := (dayNames.getD g.tm_wday.toNat "Mon")
  let mo := (monthNames.getD (g.tm_mon.toNat - 1) "Jan")
  wd ++ ", " ++ pad2 g.tm_mday.toNat ++ " " ++ mo ++ " " ++ pad4 g.tm_year.toNat
    ++ " " ++ pad2 g.tm_hour.toNat ++ ":" ++ pad2 g.tm_min.toNat ++ ":"
    ++ pad2 g.tm_sec.toNat ++ " GMT"

/-! ## `email.utils.parsedate`

A branch-for-branch embedding of CPython's
`email._parseaddr._parsedate_tz` (3.11) restricted to the first nine
elements of its result, which are all `parsedate` keeps (`t[:9]`): the
timezone token takes part in the token reshuffling exactly as in the
source, but its offset arithmetic is dropped, since it only produces
element ten.  On success the nine-tuple is the six parsed calendar
fields followed by the fixed filler `(0, 1, -1)`, exactly as in
CPython. -/

/-- `email._parseaddr._daynames` (three-letter forms only). -/
def pyDayNames : List String := ["mon", "tue", "wed", "thu", "fri", "sat", "sun"]

/-- `email._parseaddr._monthnames` (abbreviated then full names; `may`
appears twice, as in CPython, and `.index` finds the first). -/
def pyMonthNames : List String :=
  ["jan", "feb", "mar", "apr", "may", "jun", "jul", "aug", "sep", "oct", "nov", "dec",
   "january", "february", "march", "april", "may", "june", "july",
   "august", "september", "october", "november", "december"]

/-- `s.find(c)`: first occurrence; Python's `-1` sentinel is `none`
(the call sites test `i > 0` or `i == -1`, modelled on the `Option`). -/
def strFindChar (s : String) (c : Char) : Option Nat := s.data.indexOf? c

/-- `s.rfind(c)`: last occurrence. -/
def strRFindChar (s : String) (c : Char) : Option Nat :=
  match s.data.reverse.indexOf? c with
  | some j => some (s.data.length - 1 - j)
  | none => none

/-- `s[n:]`. -/
def strDrop (s : String) (n : Nat) : String := ⟨s.data.drop n⟩

def pyDigitsGo (acc : Nat) : List Char → Option Nat
  | [] => some acc
  | '_' :: c :: rest =>
      if c.isDigit then pyDigitsGo (acc * 10 + (c.toNat - 48)) rest else none
  | ['_'] => none
  | c :: rest => if c.isDigit then pyDigitsGo (acc * 10 + (c.toNat - 48)) rest else none

/-- A digit run as `int` accepts it: starts with a digit, single
underscores allowed between digits (`1_0` parses, `_1`, `1_`, `1__0` do
not). -/
def pyDigits : List Char → Option Nat
  | [] => none
  | c :: rest => if c.isDigit then pyDigitsGo (c.toNat - 48) rest else none

/-- `int(s)`: optional sign, then digits with underscore grouping.
(CPython's `int` also strips surrounding whitespace — impossible here,
the tokens are whitespace-free — and accepts non-ASCII Unicode decimal
digits, which cannot occur in a WSGI header value: PEP 3333 decodes
headers as latin-1, whose only decimal digits are ASCII.) -/
def pyInt? (s : String) : Option Int :=
  match s.data with
  | '+' :: rest => (pyDigits rest).map Int.ofNat
  | '-' :: rest => (pyDigits rest).map fun n => -(Int.ofNat n)
  | l => (pyDigits l).map Int.ofNat

/-- The tail of `_parsedate_tz`, from `[dd, mm, yy, tm, tz] = data`
onward. -/
def parsedateFields (dd mm yy tm tz : String) :
    Option (Int × Int × Int × Int × Int × Int) := do
  -- `if not (dd and mm and yy): return None`
  guard ¬(dd = "" ∨ mm = "" ∨ yy = "")
  -- `mm = mm.lower()`; on failure `dd, mm = mm, dd.lower()` and retry
  let (dd, mmName) ←
    if pyMonthNames.contains (strLower mm) then pure (dd, strLower mm)
    else if pyMonthNames.contains (strLower dd) then pure (mm, strLower dd)
    else none
  -- `mm = _monthnames.index(mm) + 1; if mm > 12: mm -= 12`
  let idx ← pyMonthNames.indexOf? mmName
  let month : Int := if idx + 1 > 12 then (idx + 1 : Nat) - 12 else (idx + 1 : Nat)
  -- `if dd[-1] == ',': dd = dd[:-1]`
  let dd := if strEndsWith dd "," then strTake dd (dd.length - 1) else dd
  -- `i = yy.find(':'); if i > 0: yy, tm = tm, yy`
  let (yy, tm) := match strFindChar yy ':' with
    | some i => if i > 0 then (tm, yy) else (yy, tm)
    | none => (yy, tm)
  -- `if yy[-1] == ',': yy = yy[:-1]; if not yy: return None`
  let yy ← if strEndsWith yy "," then
      let stripped := strTake yy (yy.length - 1)
      if stripped = "" then none else pure stripped
    else pure yy
  -- `if not yy[0].isdigit(): yy, tz = tz, yy`
  let (yy, _tz) ← match yy.data with
    | [] => none  -- unreachable: yy is non-empty here
    | c :: _ => pure (if !c.isDigit then (tz, yy) else (yy, tz))
  -- `if tm[-1] == ',': tm = tm[:-1]`; then split on `:` (or `.`)
  let tm := if strEndsWith tm "," then strTake tm (tm.length - 1) else tm
  let (thh, tmm, tss) ←
    match splitChar tm ':' with
    | [a, b] => pure (a, b, "0")
    | [a, b, c] => pure (a, b, c)
    | [a] =>
      if a.data.contains '.' then
        match splitChar a '.' with
        | [x, y] => pure (x, y, "0")
        | [x, y, z] => pure (x, y, z)
        | _ => none
      else none
    | _ => none
  -- the `int(...)` conversions, any `ValueError` giving `None`
  let y ← pyInt? yy
  let d ← pyInt? dd
  let h ← pyInt? thh
  let mi ← pyInt? tmm
  let s ← pyInt? tss
  -- two-digit-year fixup
  let y := if y < 100 then (if y > 68 then y + 1900 else y + 2000) else y
  pure (y, month, d, h, mi, s)

/-- `_parsedate_tz` on the whitespace-split tokens of the input. -/
def parsedateTokens (toks : List String) :
    Option (Int × Int × Int × Int × Int × Int) := do
  -- `if not data: return None` (both guards: empty and whitespace-only)
  -- `if data[0].endswith(',') or data[0].lower() in _daynames: del data[0]`
  -- `else: i = data[0].rfind(','); if i >= 0: data[0] = data[0][i+1:]`
  let data ← match toks with
    | [] => none
    | t :: rest =>
      if strEndsWith t "," || pyDayNames.contains (strLower t) then pure rest
      else match strRFindChar t ',' with
        | some i => pure (strDrop t (i + 1) :: rest)
        | none => pure (t :: rest)
  -- `if len(data) == 3:` RFC 850, deprecated: split the date on `-`
  let data := if data.length == 3 then
      match data with
      | t0 :: rest =>
        let stuff := splitChar t0 '-'
        if stuff.length == 3 then stuff ++ rest else t0 :: rest
      | [] => data
    else data
  -- `if len(data) == 4:` a numeric zone may be glued to the time
  let data := if data.length == 4 then
      match data with
      | [d0, d1, d2, s] =>
        let i := match strFindChar s '+' with
          | some i => some i
          | none => strFindChar s '-'
        match i with
        | some i =>
          if i > 0 then [d0, d1, d2, strTake s i, strDrop s i] else [d0, d1, d2, s, ""]
        | none => [d0, d1, d2, s, ""]
      | _ => data
    else data
  -- `if len(data) < 5: return None` and `data = data[:5]`
  match data with
  | dd :: mm :: yy :: tm :: tz :: _ => parsedateFields dd mm yy tm tz
  | _ => none

/-- The tuple `parsedate` returns on success: the six calendar fields
followed by the fixed filler `(0, 1, -1)` (as in `_parsedate_tz`). -/
def mkParsedTuple (v : Int × Int × Int × Int × Int × Int) : TimeTuple :=
  { tm_year := v.1, tm_mon := v.2.1, tm_mday := v.2.2.1
    tm_hour := v.2.2.2.1, tm_min := v.2.2.2.2.1, tm_sec := v.2.2.2.2.2
    tm_wday := 0, tm_yday := 1, tm_isdst := -1 }

/-- `email.utils.parsedate`: `parsedate_tz(data)[:9]`, `None` on parse
failure. -/
def parsedate (s : String) : Option TimeTuple :=
  (parsedateTokens (wsSplit s)).map mkParsedTuple

/-- Python 2's `x >= y` where `x` is `parsedate`'s result (possibly `None`)
and `y` a `struct_time`: `None` orders before every non-`None` value, so
`None >= y` is `False`; otherwise tuple comparison. -/
def pyGE (a : Option TimeTuple) (b : TimeTuple) : Bool :=
  match a with
  | none => false
  | some t => tupleGE t b

/-! ## `wsgiref.headers.Headers`

An ordered list of `(name, value)` pairs with case-insensitive names.
`__setitem__` deletes every pair with the given name and appends the new
pair at the end; `__getitem__`/`get` return the value of the *first*
matching pair (or `None`); `add_header` plain-appends, rendering each
keyword parameter as `; key="value"`; `items()` is the underlying list. -/

abbrev HeaderList := List (String × String)

/-- Case-insensitive header-name equality. -/
def hnameEq (a b : String) : Bool := strLower a == strLower b

/-- `headers[name] = value`. -/
def hset (hs : HeaderList) (n v : String) : HeaderList :=
  (hs.filter fun p => !hnameEq p.1 n) ++ [(n, v)]

/-- `headers[name]` / `headers.get(name)`. -/
def hget (hs : HeaderList) (n : String) : Option String :=
  (hs.find? fun p => hnameEq p.1 n).map Prod.snd

/-! ## The `re` slice: `re.compile(r'\bgzip\b').search`

`\w` without `re.UNICODE` is `[a-zA-Z0-9_]`.  The pattern has no
alternation or repetition, so a search succeeds iff some position starts
the literal `gzip` with a non-word character (or the string edge) on each
side. -/

def isWordChar (c : Char) : Bool := c.isAlpha || c.isDigit || c == '_'

def boundaryBefore : Option Char → Bool
  | none => true
  | some c => !isWordChar c

def boundaryAfter : List Char → Bool
  | [] => true
  | c :: _ => !isWordChar c

/-- Does `gzip` occur here, as a `\b`-delimited token? -/
def gzipAt (prev : Option Char) : List Char → Bool
  | 'g' :: 'z' :: 'i' :: 'p' :: rest => boundaryBefore prev && boundaryAfter rest
  | _ => false

def searchGzip : Option Char → List Char → Bool
  | _, [] => false
  | prev, c :: rest => gzipAt prev (c :: rest) || searchGzip (some c) rest

/-- `StaticFile.ACCEPT_GZIP_RE.search(s)` succeeded. -/
def acceptsGzip (s : String) : Bool := searchGzip none s.data

/-! ## Filesystem and WSGI request/response abstractions -/

/-- The filesystem as seen through `os.stat` and `os.path.isfile`.
Modification times are whole seconds since the epoch. -/
structure FS where
  isfile : String → Bool
  size : String → Nat
  mtime : String → Nat

/-- The parts of the WSGI `environ` dict the module reads.
`PATH_INFO`, `REQUEST_METHOD` and `wsgi.url_scheme` are read with `[]`;
`HTTP_IF_MODIFIED_SINCE` with `[]` guarded by `try/except KeyError`
(hence `Option`); `HTTP_HOST` and `HTTP_ACCEPT_ENCODING` with
`.get(key, '')` (hence plain `String` holding the default `''`). -/
structure Environ where
  requestMethod : String
  pathInfo : String
  wsgiUrlScheme : String
  httpHost : String
  httpIfModifiedSince : Option String
  httpAcceptEncoding : String
deriving DecidableEq, Repr

/-- A response body: `[]`, or the opened file handed to the file wrapper. -/
inductive Body where
  | empty : Body
  | file : String → Body
deriving DecidableEq, Repr

/-- What one call to the WSGI callable produces: the `start_response`
status and header list, plus the returned body. -/
structure Response where
  status : String
  headers : HeaderList
  body : Body
deriving DecidableEq, Repr

/-! ## `class Redirect` -/

namespace Redirect

/-- `Redirect.serve`.  The redirect target `path` plays the part of
`self.path`. -/
def serve (path : String) (e : Environ) : Response :=
  if e.requestMethod ≠ "GET" && e.requestMethod ≠ "HEAD" then
    { status := "405 Method Not Allowed", headers := [("Allow", "GET, HEAD")], body := .empty }
  else
    let host := e.httpHost
    let location := if host ≠ "" then e.wsgiUrlScheme ++ "://" ++ host ++ path else path
    { status := "301 Moved Permanently", headers := [("Location", location)], body := .empty }

end Redirect

/-! ## `class StaticFile` -/

def BLOCK_SIZE : Nat := 16 * 4096

def MIMETYPES_WITH_CHARSET : List String := ["application/javascript", "application/xml"]

def CHARSET : String := "utf-8"

def FOREVER : Nat := 10 * 365 * 24 * 60 * 60

def GZIP_SUFFIX : String := ".gz"

/-- The per-file state a `StaticFile` instance carries after `__init__`. -/
structure StaticFile where
  path : String
  mtime_tuple : TimeTuple
  headers : HeaderList
  gzip_path : Option String
  gzip_headers : Option HeaderList
deriving DecidableEq, Repr

/-- `StaticFile.get_charset` (falls off the end, i.e. returns `None`, for
non-text types). -/
def get_charset (mimetype : String) : Option String :=
  if strStartsWith mimetype "text/" || MIMETYPES_WITH_CHARSET.contains mimetype then
    some CHARSET
  else none

/-- Configuration as merged into `WhiteNoise.config` (the `guess_type`
entry, a function, is kept as a separate argument). -/
structure Config where
  max_age : Option Int
  allow_all_origins : Bool
  charset : String
  index_file : String

/-- The `WhiteNoise.CONFIG` defaults. -/
def CONFIG : Config :=
  { max_age := some 60, allow_all_origins := true, charset := "utf-8",
    index_file := "index.html" }

/-- `StaticFile.__init__(path, is_immutable, guess_type, **config)`:
stats the file, builds the precomputed header list, and probes for the
`.gz` sibling.  `add_header('Content-Type', mimetype, charset=c)` renders
as `mimetype; charset="c"` per `wsgiref.headers`. -/
def StaticFile.make (fs : FS) (guess_type : String → Option String × Option String)
    (cfg : Config) (path : String) (is_immutable : Bool) : StaticFile :=
  let st_mtime := fs.mtime path
  let mtime_tuple := gmtime st_mtime
  let (mt, encoding) := guess_type path
  let mimetype := mt.getD "application/octet-stream"
  let charset := get_charset mimetype
  let headers : HeaderList :=
    [("Last-Modified", formatdate st_mtime),
     ("Content-Length", toString (fs.size path))]
  let headers := headers ++
    [("Content-Type",
      match charset with
      | some c => mimetype ++ "; charset=\"" ++ c ++ "\""
      | none => mimetype)]
  let headers := match encoding with
    | some enc => hset headers "Content-Encoding" enc
    | none => headers
  let max_age : Option Int := if is_immutable then some (FOREVER : Nat) else cfg.max_age
  let headers := match max_age with
    | some a => hset headers "Cache-Control" ("public, max-age=" ++ toString a)
    | none => headers
  let headers := if cfg.allow_all_origins then
      hset headers "Access-Control-Allow-Origin" "*"
    else headers
  let gzip_path := path ++ GZIP_SUFFIX
  if fs.isfile gzip_path then
    let headers := hset headers "Vary" "Accept-Encoding"
    let gzip_headers := hset (hset headers "Content-Encoding" "gzip")
      "Content-Length" (toString (fs.size gzip_path))
    { path, mtime_tuple, headers, gzip_path := some gzip_path,
      gzip_headers := some gzip_headers }
  else
    { path, mtime_tuple, headers, gzip_path := none, gzip_headers := none }

/-- `StaticFile.file_not_modified`, in state-passing form (the method
only reads `self`; the returned `StaticFile` is the instance after the
call).  `last_requested == self.headers['Last-Modified']` is Python string
equality against a possibly-missing header; `parsedate(...) >=
self.mtime_tuple` is `pyGE`. -/
def StaticFile.file_not_modifiedSt (sf : StaticFile) (e : Environ) : Bool × StaticFile :=
  match e.httpIfModifiedSince with
  | none => (false, sf)
  | some last_requested =>
    if some last_requested = hget sf.headers "Last-Modified" then (true, sf)
    else (pyGE (parsedate last_requested) sf.mtime_tuple, sf)

/-- `StaticFile.get_path_and_headers`, in state-passing form.
`self.gzip_headers` is non-`None` whenever `self.gzip_path` is (both are
set together in `__init__`); `getD []` stands for the attribute access. -/
def StaticFile.get_path_and_headersSt (sf : StaticFile) (e : Environ) :
    (String × HeaderList) × StaticFile :=
  match sf.gzip_path with
  | some gp =>
      if acceptsGzip e.httpAcceptEncoding then ((gp, sf.gzip_headers.getD []), sf)
      else ((sf.path, sf.headers), sf)
  | none => ((sf.path, sf.headers), sf)

/-- `StaticFile.serve`, in state-passing form: the `Response` pairs the
status/headers given to `start_response` with the returned body (`[]`, or
the file object handed to the file wrapper). -/
def StaticFile.serveSt (sf : StaticFile) (e : Environ) : Response × StaticFile :=
  let method := e.requestMethod
  if method ≠ "GET" && method ≠ "HEAD" then
    ({ status := "405 Method Not Allowed", headers := [("Allow", "GET, HEAD")],
       body := .empty }, sf)
  else
    let (notModified, sf) := sf.file_not_modifiedSt e
    if notModified then
      ({ status := "304 Not Modified", headers := [], body := .empty }, sf)
    else
      let ((path, headers), sf) := sf.get_path_and_headersSt e
      if method = "HEAD" then
        ({ status := "200 OK", headers := headers, body := .empty }, sf)
      else
        ({ status := "200 OK", headers := headers, body := .file path }, sf)

def StaticFile.serve (sf : StaticFile) (e : Environ) : Response :=
  (sf.serveSt e).1

def StaticFile.get_path_and_headers (sf : StaticFile) (e : Environ) : String × HeaderList :=
  (sf.get_path_and_headersSt e).1

/-! ## `class WhiteNoise` -/

/-- A value of `self.files`: either a `StaticFile` or a `Redirect`
instance. -/
inductive Entry where
  | static : StaticFile → Entry
  | redirect : String → Entry
deriving DecidableEq, Repr

/-- `self.files`, keyed by exact URL path. -/
def Catalog := String → Option Entry

/-- `files[url] = entry`. -/
def Catalog.set (files : Catalog) (url : String) (v : Entry) : Catalog :=
  fun q => if q = url then some v else files q

/-- Duck-typed `entry.serve(environ, start_response)`. -/
def Entry.serve : Entry → Environ → Response
  | .static sf, e => sf.serve e
  | .redirect p, e => Redirect.serve p e

/-- `WhiteNoise.is_immutable_file` in the base class: always `False`. -/
def is_immutable_file (_static_file _url : String) : Bool := false

/-- `WhiteNoise.get_static_file`, wrapped as an `Entry`. -/
def get_static_file (fs : FS) (guess_type : String → Option String × Option String)
    (cfg : Config) (file_path url : String) : Entry :=
  .static (StaticFile.make fs guess_type cfg file_path (is_immutable_file file_path url))

/-- `prefix = (prefix or '').strip('/'); prefix = '/{}/'.format(prefix) if
prefix else '/'`. -/
def normalizePrefix (pfx : Option String) : String :=
  let s := stripSlashes (pfx.getD "")
  if s ≠ "" then "/" ++ s ++ "/" else "/"

/-- One iteration of the inner loop of `WhiteNoise.add_files` for a file
at `relpath` relative to `root` (separators already normalized to `/`, as
after the `.replace(os.sep, '/')`); `os.path.join(dir_path, filename)`
relative to `root` is `root ++ "/" ++ relpath`. -/
def addFile (fs : FS) (guess_type : String → Option String × Option String)
    (cfg : Config) (root pfx : String) (files : Catalog) (relpath : String) : Catalog :=
  let file_path := root ++ "/" ++ relpath
  let url := pfx ++ relpath
  let index_file := cfg.index_file
  let files :=
    if strEndsWith url index_file then
      let noslash := strTake url (url.length - index_file.length - 1)
      let withslash := strTake url (url.length - index_file.length)
      let files :=
        if noslash ≠ "" then files.set noslash (.redirect withslash)
        else files.set noslash (get_static_file fs guess_type cfg file_path noslash)
      files.set withslash (get_static_file fs guess_type cfg file_path withslash)
    else files
  files.set url (get_static_file fs guess_type cfg file_path url)

/-- `WhiteNoise.add_files(root, prefix)` starting from catalog `files`.
`walk` is the list of file paths `os.walk(root)` discovers, relative to
`root` with `/` separators, in traversal order. -/
def add_files (fs : FS) (guess_type : String → Option String × Option String)
    (cfg : Config) (files : Catalog) (root : String) (pfx : Option String)
    (walk : List String) : Catalog :=
  walk.foldl (addFile fs guess_type cfg root (normalizePrefix pfx)) files

/-- The catalog a fresh `WhiteNoise(application, root, prefix)` holds
(`self.files` starts `{}` and `add_files` runs once). -/
def whiteNoiseFiles (fs : FS) (guess_type : String → Option String × Option String)
    (cfg : Config) (root : String) (pfx : Option String) (walk : List String) : Catalog :=
  add_files fs guess_type cfg (fun _ => none) root pfx walk

/-- `WhiteNoise.__call__`: exact-path lookup, then either delegate to the
wrapped application or serve the catalog entry. -/
def whiteNoiseCall (files : Catalog) (application : Environ → Response)
    (e : Environ) : Response :=
  match files e.pathInfo with
  | none => application e
  | some entry => entry.serve e

/-! ## Concrete fixtures (a small static tree, used to instantiate the
theorems below on closed inputs)

A root `/root` holding `foo.css` (100 bytes), its precompressed sibling
`foo.css.gz` (60 bytes), `docs/index.html` and `index.html`, all last
modified at epoch second 784111777 = `Sun, 06 Nov 1994 08:49:37 GMT`. -/

def exampleFS : FS :=
  { isfile := fun p =>
      ["/root/foo.css", "/root/foo.css.gz", "/root/docs/index.html",
       "/root/index.html"].contains p
    size := fun p => if p = "/root/foo.css" then 100
      else if p = "/root/foo.css.gz" then 60 else 10
    mtime := fun _ => 784111777 }

/-- A deterministic stand-in for `mimetypes.guess_type` agreeing with the
default table on the extensions the fixture uses. -/
def exampleGuess (p : String) : Option String × Option String :=
  if strEndsWith p ".css.gz" then (some "text/css", some "gzip")
  else if strEndsWith p ".css" then (some "text/css", none)
  else if strEndsWith p ".html" then (some "text/html", none)
  else (none, none)

def exampleWalk : List String :=
  ["foo.css", "foo.css.gz", "docs/index.html", "index.html"]

def exampleCatalog : Catalog :=
  whiteNoiseFiles exampleFS exampleGuess CONFIG "/root" none exampleWalk

def exampleStatic : StaticFile :=
  StaticFile.make exampleFS exampleGuess CONFIG "/root/foo.css" false

/-- A request environ against the fixture tree. -/
def mkEnv (method path : String) (ims : Option String) (ae : String) : Environ :=
  { requestMethod := method, pathInfo := path, wsgiUrlScheme := "http",
    httpHost := "example.com", httpIfModifiedSince := ims, httpAcceptEncoding := ae }

/-- A downstream application that tags every request it receives. -/
def exampleApp (e : Environ) : Response :=
  { status := "200 OK", headers := [("X-App", e.pathInfo)], body := .empty }

/-- The catalog keys one `add_files` iteration assigns for a file at
`relpath` (the full URL, plus the two index aliases when the URL ends in
the index filename).  Used to state non-interference between walk
entries. -/
def urlsWritten (cfg : Config) (pfx relpath : String) : List String :=
  let url := pfx ++ relpath
  if strEndsWith url cfg.index_file then
    [strTake url (url.length - cfg.index_file.length - 1),
     strTake url (url.length - cfg.index_file.length), url]
  else [url]

end WhiteNoiseModel

namespace WhiteNoiseModel

/-! # Verification

### Header-map lemmas -/

theorem hnameEq_trans_right {x m n : String} (h1 : hnameEq x m = true)
    (h2 : hnameEq n m = true) : hnameEq x n = true := by
  simp only [hnameEq, beq_iff_eq] at *
  exact h1.trans h2.symm

theorem find?_filter_of_imp {α : Type} (l : List α) (p q : α → Bool)
    (h : ∀ x, p x = true → q x = true) :
    (l.filter q).find? p = l.find? p := by
  induction l with
  | nil => rfl
  | cons x t ih =>
    cases hq : q x with
    | true =>
      rw [List.filter_cons_of_pos hq]
      cases hp : p x with
      | true => rw [List.find?_cons_of_pos _ hp, List.find?_cons_of_pos _ hp]
      | false =>
        rw [List.find?_cons_of_neg _ (by simp [hp]),
            List.find?_cons_of_neg _ (by simp [hp]), ih]
    | false =>
      have hp : p x = false := by
        cases hpx : p x
        · rfl
        · exact absurd (h x hpx) (by simp [hq])
      rw [List.filter_cons_of_neg (by simp [hq]),
          List.find?_cons_of_neg _ (by simp [hp]), ih]

/-- The fundamental `Headers.__setitem__` / `__getitem__` interaction. -/
theorem hget_hset (hs : HeaderList) (n v m : String) :
    hget (hset hs n v) m = if hnameEq n m = true then some v else hget hs m := by
  unfold hget hset
  rw [List.find?_append]
  cases hEq : hnameEq n m with
  | true =>
    have h1 : (hs.filter fun p => !hnameEq p.1 n).find? (fun p => hnameEq p.1 m) = none := by
      rw [List.find?_eq_none]
      intro x hx hpx
      rw [List.mem_filter] at hx
      have := hnameEq_trans_right hpx hEq
      simp [this] at hx
    rw [h1]
    simp [List.find?, hEq]
  | false =>
    have h2 : List.find? (fun p => hnameEq p.1 m) [(n, v)] = none := by
      simp [List.find?, hEq]
    rw [h2, find?_filter_of_imp]
    · simp
    · intro x hpx
      cases hxn : hnameEq x.1 n
      · simp
      · exfalso
        simp only [hnameEq, beq_iff_eq] at hpx hxn
        have : strLower n = strLower m := hxn.symm.trans hpx
        simp [hnameEq, this] at hEq

theorem hget_hset_same (hs : HeaderList) (n v : String) :
    hget (hset hs n v) n = some v := by
  rw [hget_hset]
  simp [hnameEq]

theorem hget_hset_ne {hs : HeaderList} {n m v : String}
    (h : hnameEq n m = false) : hget (hset hs n v) m = hget hs m := by
  rw [hget_hset, h]
  simp

/-! ### Catalog lemmas -/

theorem Catalog.set_lookup (files : Catalog) (url : String) (v : Entry) (q : String) :
    (files.set url v) q = if q = url then some v else files q := rfl

/-! ### Lexicographic-tuple lemmas -/

/-- C7: a request whose path has no entry in the catalog is handed to the
downstream application (with the same `environ`) and its response is
returned verbatim; the dispatcher never answers 404 itself. -/
theorem dispatcher_delegates_unknown_path (files : Catalog)
    (application : Environ → Response) (e : Environ)
    (h : files e.pathInfo = none) :
    whiteNoiseCall files application e = application e := by
  simp [whiteNoiseCall, h]

theorem dispatcher_delegates_unknown_path_witness :
    exampleCatalog "/nonexistent.js" = none ∧
      whiteNoiseCall exampleCatalog exampleApp (mkEnv "GET" "/nonexistent.js" none "") =
        exampleApp (mkEnv "GET" "/nonexistent.js" none "") :=
  ⟨by decide, dispatcher_delegates_unknown_path exampleCatalog exampleApp
    (mkEnv "GET" "/nonexistent.js" none "") (by decide)⟩

theorem file_not_modifiedSt_snd (sf : StaticFile) (e : Environ) :
    (sf.file_not_modifiedSt e).2 = sf := by
  unfold StaticFile.file_not_modifiedSt
  rcases hims : e.httpIfModifiedSince with _ | ims <;> simp [hims] <;> split_ifs <;> rfl

theorem get_path_and_headersSt_snd (sf : StaticFile) (e : Environ) :
    (sf.get_path_and_headersSt e).2 = sf := by
  unfold StaticFile.get_path_and_headersSt
  rcases hgz : sf.gzip_path with _ | gp <;> simp [hgz] <;> split_ifs <;> rfl

/-- C8: serving a request (any method, any conditional headers) returns
the `StaticFile` state unchanged: none of `serve`, `file_not_modified`,
`get_path_and_headers` assigns an attribute, so the precomputed header
maps, paths and modification-time fingerprint survive every request. -/
theorem serve_preserves_descriptor (sf : StaticFile) (e : Environ) :
    (sf.serveSt e).2 = sf := by
  unfold StaticFile.serveSt
  rcases hnm : sf.file_not_modifiedSt e with ⟨nm, sf1⟩
  have h1 : sf1 = sf := by
    have h := file_not_modifiedSt_snd sf e
    rw [hnm] at h
    exact h
  rcases hph : sf1.get_path_and_headersSt e with ⟨⟨p, hd⟩, sf2⟩
  have h2 : sf2 = sf1 := by
    have h := get_path_and_headersSt_snd sf1 e
    rw [hph] at h
    exact h
  subst h1
  subst h2
  simp [hnm, hph]
  split_ifs <;> simp [hnm, hph]

/-- C6: a request to a catalogued path (asset or redirect) with a method
other than GET/HEAD gets `405 Method Not Allowed` with `Allow: GET, HEAD`
and an empty body; the downstream application plays no part in the
response. -/
theorem catalogued_path_405_on_other_method (files : Catalog)
    (application : Environ → Response) (e : Environ) (entry : Entry)
    (hl : files e.pathInfo = some entry)
    (hg : e.requestMethod ≠ "GET") (hh : e.requestMethod ≠ "HEAD") :
    whiteNoiseCall files application e =
      { status := "405 Method Not Allowed", headers := [("Allow", "GET, HEAD")],
        body := .empty } := by
  unfold whiteNoiseCall
  rw [hl]
  cases entry with
  | static sf => simp [Entry.serve, StaticFile.serve, StaticFile.serveSt, hg, hh]
  | redirect p => simp [Entry.serve, Redirect.serve, hg, hh]

theorem catalogued_path_405_on_other_method_witness :
    (exampleCatalog "/foo.css").isSome = true ∧
      whiteNoiseCall exampleCatalog exampleApp (mkEnv "POST" "/foo.css" none "") =
        { status := "405 Method Not Allowed", headers := [("Allow", "GET, HEAD")],
          body := .empty } := by
  refine ⟨by decide, ?_⟩
  exact catalogued_path_405_on_other_method exampleCatalog exampleApp
    (mkEnv "POST" "/foo.css" none "")
    (.static (StaticFile.make exampleFS exampleGuess CONFIG "/root/foo.css" false))
    (by decide) (by decide) (by decide)

/-- C10: the method check runs before the conditional check: a non-GET,
non-HEAD request is answered 405 even when its `If-Modified-Since` value
equals the stored `Last-Modified` header; it never receives 304. -/
theorem method_check_precedes_conditional (files : Catalog)
    (application : Environ → Response) (e : Environ) (sf : StaticFile) (ims : String)
    (hl : files e.pathInfo = some (.static sf))
    (hg : e.requestMethod ≠ "GET") (hh : e.requestMethod ≠ "HEAD")
    (hi : e.httpIfModifiedSince = some ims)
    (heq : some ims = hget sf.headers "Last-Modified") :
    whiteNoiseCall files application e =
        { status := "405 Method Not Allowed", headers := [("Allow", "GET, HEAD")],
          body := .empty } ∧
      (whiteNoiseCall files application e).status ≠ "304 Not Modified" := by
  have h405 : whiteNoiseCall files application e =
      { status := "405 Method Not Allowed", headers := [("Allow", "GET, HEAD")],
        body := .empty } := by
    unfold whiteNoiseCall
    rw [hl]
    simp [Entry.serve, StaticFile.serve, StaticFile.serveSt, hg, hh]
  refine ⟨h405, ?_⟩
  rw [h405]
  decide

theorem method_check_precedes_conditional_witness :
    whiteNoiseCall exampleCatalog exampleApp
        (mkEnv "PUT" "/foo.css" (some "Sun, 06 Nov 1994 08:49:37 GMT") "") =
      { status := "405 Method Not Allowed", headers := [("Allow", "GET, HEAD")],
        body := .empty } :=
  (method_check_precedes_conditional exampleCatalog exampleApp
    (mkEnv "PUT" "/foo.css" (some "Sun, 06 Nov 1994 08:49:37 GMT") "")
    (StaticFile.make exampleFS exampleGuess CONFIG "/root/foo.css" false)
    "Sun, 06 Nov 1994 08:49:37 GMT"
    (by decide) (by decide) (by decide) (by decide) (by decide)).1

/-- Whatever `guess_type`, config and gzip sibling say, the
modification-time fingerprint a built `StaticFile` stores is
`gmtime(os.stat(path).st_mtime)`. -/
theorem make_mtime_tuple (fs : FS)
    (guess_type : String → Option String × Option String) (cfg : Config)
    (path : String) (imm : Bool) :
    (StaticFile.make fs guess_type cfg path imm).mtime_tuple = gmtime (fs.mtime path) := by
  unfold StaticFile.make
  rcases hg : guess_type path with ⟨mt, enc⟩
  simp only [hg]
  repeat' split
  all_goals rfl

/-- When the `.gz` sibling exists, `__init__` ends with `Vary` set on the
plain headers, copies them, and overrides `Content-Encoding` and
`Content-Length` in the copy. -/
theorem make_gzip_fields (fs : FS)
    (guess_type : String → Option String × Option String) (cfg : Config)
    (path : String) (imm : Bool)
    (hgz : fs.isfile (path ++ GZIP_SUFFIX) = true) :
    ∃ H : HeaderList,
      (StaticFile.make fs guess_type cfg path imm).headers = hset H "Vary" "Accept-Encoding"
      ∧ (StaticFile.make fs guess_type cfg path imm).gzip_path = some (path ++ GZIP_SUFFIX)
      ∧ (StaticFile.make fs guess_type cfg path imm).gzip_headers =
          some (hset (hset (hset H "Vary" "Accept-Encoding") "Content-Encoding" "gzip")
            "Content-Length" (toString (fs.size (path ++ GZIP_SUFFIX))))
      ∧ (StaticFile.make fs guess_type cfg path imm).path = path := by
  unfold StaticFile.make
  rcases hg : guess_type path with ⟨mt, enc⟩
  simp only [hg, hgz, if_true]
  exact ⟨_, rfl, by simp, by simp, by simp⟩

/-- C4: on a GET request for an asset with a precompressed sibling, a
word-boundary `gzip` token in `Accept-Encoding` selects the compressed
path and its precomputed headers (`Content-Encoding: gzip`, the
compressed byte length); otherwise the plain path and headers are used;
both header sets carry `Vary: Accept-Encoding`. -/
theorem gzip_variant_selection (fs : FS)
    (guess_type : String → Option String × Option String) (cfg : Config)
    (path : String) (imm : Bool) (e : Environ) (sf : StaticFile)
    (hsf : sf = StaticFile.make fs guess_type cfg path imm)
    (hgz : fs.isfile (path ++ GZIP_SUFFIX) = true)
    (hm : e.requestMethod = "GET")
    (hi : e.httpIfModifiedSince = none) :
    (acceptsGzip e.httpAcceptEncoding = true →
        sf.serve e = { status := "200 OK", headers := sf.gzip_headers.getD [],
                       body := .file (path ++ GZIP_SUFFIX) }
        ∧ hget (sf.gzip_headers.getD []) "Content-Encoding" = some "gzip"
        ∧ hget (sf.gzip_headers.getD []) "Content-Length"
            = some (toString (fs.size (path ++ GZIP_SUFFIX)))
        ∧ hget (sf.gzip_headers.getD []) "Vary" = some "Accept-Encoding")
    ∧ (acceptsGzip e.httpAcceptEncoding = false →
        sf.serve e = { status := "200 OK", headers := sf.headers, body := .file path }
        ∧ hget sf.headers "Vary" = some "Accept-Encoding") := by
  obtain ⟨H, hH, hP, hG, hpath⟩ := make_gzip_fields fs guess_type cfg path imm hgz
  rw [← hsf] at hH hP hG hpath
  have hn : sf.file_not_modifiedSt e = (false, sf) := by
    unfold StaticFile.file_not_modifiedSt
    rw [hi]
  have eV : hnameEq "Content-Length" "Vary" = false := by decide
  have eV' : hnameEq "Content-Encoding" "Vary" = false := by decide
  have eC : hnameEq "Content-Length" "Content-Encoding" = false := by decide
  constructor
  · intro hacc
    have hph : sf.get_path_and_headersSt e = ((path ++ GZIP_SUFFIX, sf.gzip_headers.getD []), sf) := by
      unfold StaticFile.get_path_and_headersSt
      rw [hP]
      simp [hacc]
    refine ⟨?_, ?_, ?_, ?_⟩
    · unfold StaticFile.serve StaticFile.serveSt
      simp [hm, hn, hph]
    · rw [hG]
      simp [Option.getD, hget_hset_ne eC, hget_hset_same]
    · rw [hG]
      simp [Option.getD, hget_hset_same]
    · rw [hG]
      simp [Option.getD, hget_hset_ne eV, hget_hset_ne eV', hget_hset_same]
  · intro hacc
    have hph : sf.get_path_and_headersSt e = ((sf.path, sf.headers), sf) := by
      unfold StaticFile.get_path_and_headersSt
      rw [hP]
      simp [hacc]
    refine ⟨?_, ?_⟩
    · unfold StaticFile.serve StaticFile.serveSt
      simp [hm, hn, hph, hpath]
    · rw [hH, hget_hset_same]

theorem gzip_variant_selection_witness :
    (exampleStatic.serve (mkEnv "GET" "/foo.css" none "gzip, deflate") =
        { status := "200 OK", headers := exampleStatic.gzip_headers.getD [],
          body := .file "/root/foo.css.gz" }
      ∧ hget (exampleStatic.gzip_headers.getD []) "Content-Encoding" = some "gzip"
      ∧ hget (exampleStatic.gzip_headers.getD []) "Vary" = some "Accept-Encoding")
    ∧ (exampleStatic.serve (mkEnv "GET" "/foo.css" none "identity") =
        { status := "200 OK", headers := exampleStatic.headers, body := .file "/root/foo.css" }
      ∧ hget exampleStatic.headers "Vary" = some "Accept-Encoding") := by
  constructor
  · have h := (gzip_variant_selection exampleFS exampleGuess CONFIG "/root/foo.css" false
      (mkEnv "GET" "/foo.css" none "gzip, deflate") exampleStatic
      (by rfl) (by decide) (by rfl) (by rfl)).1 (by decide)
    exact ⟨h.1, h.2.1, h.2.2.2⟩
  · exact (gzip_variant_selection exampleFS exampleGuess CONFIG "/root/foo.css" false
      (mkEnv "GET" "/foo.css" none "identity") exampleStatic
      (by rfl) (by decide) (by rfl) (by rfl)).2 (by decide)

/-- C9: header building never reads the configured `charset`: two configs
differing only in `charset` produce identical `StaticFile`s; and for every
text-like MIME type (prefix `text/` or in `MIMETYPES_WITH_CHARSET`) the
charset parameter rendered into `Content-Type` is the class constant
`'utf-8'`. -/
theorem charset_always_utf8 :
    (∀ (fs : FS) (guess_type : String → Option String × Option String)
        (cfg : Config) (c path : String) (imm : Bool),
      StaticFile.make fs guess_type { cfg with charset := c } path imm
        = StaticFile.make fs guess_type cfg path imm)
    ∧ (∀ m : String, (strStartsWith m "text/" || MIMETYPES_WITH_CHARSET.contains m) = true →
        get_charset m = some "utf-8")
    ∧ (∀ (fs : FS) (guess_type : String → Option String × Option String)
        (cfg : Config) (path : String) (imm : Bool) (m : String) (enc : Option String),
        guess_type path = (some m, enc) →
        (strStartsWith m "text/" || MIMETYPES_WITH_CHARSET.contains m) = true →
        hget (StaticFile.make fs guess_type cfg path imm).headers "Content-Type"
          = some (m ++ "; charset=\"utf-8\"")) := by
  refine ⟨?_, ?_, ?_⟩
  · intro fs guess_type cfg c path imm
    cases cfg
    rfl
  · intro m hm
    unfold get_charset
    rw [hm]
    rfl
  · intro fs guess_type cfg path imm m enc hg hm
    have hcs : get_charset m = some "utf-8" := by
      unfold get_charset
      rw [hm]
      rfl
    have e1 : hnameEq "Content-Encoding" "Content-Type" = false := by decide
    have e2 : hnameEq "Cache-Control" "Content-Type" = false := by decide
    have e3 : hnameEq "Access-Control-Allow-Origin" "Content-Type" = false := by decide
    have e4 : hnameEq "Vary" "Content-Type" = false := by decide
    have e5 : hnameEq "Last-Modified" "Content-Type" = false := by decide
    have e6 : hnameEq "Content-Length" "Content-Type" = false := by decide
    have e7 : hnameEq "Content-Type" "Content-Type" = true := by decide
    unfold StaticFile.make
    simp only [hg, Option.getD_some, hcs]
    repeat' split
    all_goals
      simp [hget, hget_hset, List.find?, e1, e2, e3, e4, e5, e6, e7, hset,
        String.append_assoc]

theorem charset_always_utf8_witness :
    StaticFile.make exampleFS exampleGuess { CONFIG with charset := "latin-1" } "/root/foo.css" false
        = exampleStatic
    ∧ get_charset "text/css" = some "utf-8"
    ∧ hget exampleStatic.headers "Content-Type" = some "text/css; charset=\"utf-8\"" := by
  refine ⟨?_, ?_, ?_⟩
  · exact charset_always_utf8.1 exampleFS exampleGuess CONFIG "latin-1" "/root/foo.css" false
  · exact charset_always_utf8.2.1 "text/css" (by decide)
  · exact charset_always_utf8.2.2 exampleFS exampleGuess CONFIG "/root/foo.css" false
      "text/css" none (by decide) (by decide)

/-! ### Catalog-build lemmas -/

theorem strTake_append_left (a b : String) : strTake (a ++ b) a.length = a := by
  unfold strTake
  rw [String.data_append]
  show (⟨(a.data ++ b.data).take a.data.length⟩ : String) = a
  rw [List.take_left]

theorem strEndsWith_append (a b : String) : strEndsWith (a ++ b) b = true := by
  unfold strEndsWith
  rw [String.data_append]
  exact List.isSuffixOf_iff_suffix.mpr ⟨a.data, rfl⟩

theorem strEndsWith_append_left (p s t : String) (h : strEndsWith s t = true) :
    strEndsWith (p ++ s) t = true := by
  unfold strEndsWith at *
  rw [String.data_append]
  obtain ⟨u, hu⟩ := List.isSuffixOf_iff_suffix.mp h
  exact List.isSuffixOf_iff_suffix.mpr ⟨p.data ++ u, by rw [List.append_assoc, hu]⟩

theorem getLast?_of_suffix {s t : List Char} (h : t <:+ s) (hne : t ≠ []) :
    s.getLast? = t.getLast? := by
  obtain ⟨u, hu⟩ := h
  rw [← hu, List.getLast?_append]
  cases hl : t.getLast? with
  | none => exact absurd (List.getLast?_eq_none_iff.mp hl) hne
  | some c => rfl

/-- A string ending in one non-empty suffix cannot end in another whose
last character differs. -/
theorem strEndsWith_false_of_last_ne (s a b : String) (ha : strEndsWith s a = true)
    (hA : a.data ≠ []) (hB : b.data ≠ [])
    (hlast : a.data.getLast? ≠ b.data.getLast?) : strEndsWith s b = false := by
  cases hsb : strEndsWith s b
  · rfl
  · exfalso
    apply hlast
    rw [← getLast?_of_suffix (List.isSuffixOf_iff_suffix.mp ha) hA,
        ← getLast?_of_suffix (List.isSuffixOf_iff_suffix.mp hsb) hB]

theorem normalizePrefix_head (pfx : Option String) :
    ∃ rest, (normalizePrefix pfx).data = '/' :: rest := by
  simp only [normalizePrefix]
  split_ifs
  · exact ⟨(stripSlashes (pfx.getD "")).data ++ "/".data,
      by rw [String.data_append, String.data_append]; rfl⟩
  · exact ⟨[], rfl⟩

/-- A walk entry whose written keys avoid `k` leaves the catalog at `k`
unchanged. -/
theorem addFile_lookup_notMem (fs : FS)
    (guess_type : String → Option String × Option String) (cfg : Config)
    (root pfx : String) (files : Catalog) (relpath k : String)
    (hk : k ∉ urlsWritten cfg pfx relpath) :
    addFile fs guess_type cfg root pfx files relpath k = files k := by
  unfold addFile
  unfold urlsWritten at hk
  cases hEnd : strEndsWith (pfx ++ relpath) cfg.index_file with
  | false =>
    simp only [hEnd, Bool.false_eq_true, if_false, List.mem_singleton] at hk ⊢
    simp only [Catalog.set]
    rw [if_neg hk]
  | true =>
    simp only [hEnd, if_true, List.mem_cons, List.mem_singleton, not_or] at hk ⊢
    obtain ⟨h1, h2, h3, -⟩ := hk
    split_ifs with hns <;>
      (simp only [Catalog.set]; rw [if_neg h3, if_neg h2, if_neg h1])

theorem foldl_addFile_lookup_notMem (fs : FS)
    (guess_type : String → Option String × Option String) (cfg : Config)
    (root pfx : String) (l : List String) (files : Catalog) (k : String)
    (h : ∀ r ∈ l, k ∉ urlsWritten cfg pfx r) :
    (l.foldl (addFile fs guess_type cfg root pfx) files) k = files k := by
  induction l generalizing files with
  | nil => rfl
  | cons r t ih =>
    rw [List.foldl_cons, ih _ (fun x hx => h x (List.mem_cons_of_mem _ hx)),
        addFile_lookup_notMem fs guess_type cfg root pfx files r k
          (h r (List.mem_cons_self _ _))]

/-- The three keys an index-file walk entry writes, when the stripped
no-slash key is non-empty. -/
theorem addFile_index_writes (fs : FS)
    (guess_type : String → Option String × Option String) (cfg : Config)
    (root pfx : String) (files : Catalog) (relpath : String)
    (hEnd : strEndsWith (pfx ++ relpath) cfg.index_file = true)
    (hne : strTake (pfx ++ relpath) ((pfx ++ relpath).length - cfg.index_file.length - 1) ≠ "")
    (h1 : strTake (pfx ++ relpath) ((pfx ++ relpath).length - cfg.index_file.length - 1)
        ≠ strTake (pfx ++ relpath) ((pfx ++ relpath).length - cfg.index_file.length))
    (h2 : strTake (pfx ++ relpath) ((pfx ++ relpath).length - cfg.index_file.length - 1)
        ≠ pfx ++ relpath)
    (h3 : strTake (pfx ++ relpath) ((pfx ++ relpath).length - cfg.index_file.length)
        ≠ pfx ++ relpath) :
    addFile fs guess_type cfg root pfx files relpath
        (strTake (pfx ++ relpath) ((pfx ++ relpath).length - cfg.index_file.length - 1))
      = some (.redirect
          (strTake (pfx ++ relpath) ((pfx ++ relpath).length - cfg.index_file.length)))
    ∧ addFile fs guess_type cfg root pfx files relpath
        (strTake (pfx ++ relpath) ((pfx ++ relpath).length - cfg.index_file.length))
      = some (get_static_file fs guess_type cfg (root ++ "/" ++ relpath)
          (strTake (pfx ++ relpath) ((pfx ++ relpath).length - cfg.index_file.length)))
    ∧ addFile fs guess_type cfg root pfx files relpath (pfx ++ relpath)
      = some (get_static_file fs guess_type cfg (root ++ "/" ++ relpath) (pfx ++ relpath)) := by
  unfold addFile
  simp only [hEnd, if_true]
  rw [if_pos hne]
  refine ⟨?_, ?_, ?_⟩
  · simp only [Catalog.set]
    rw [if_neg h2, if_neg h1, if_pos trivial]
  · simp only [Catalog.set]
    rw [if_neg h3, if_pos trivial]
  · simp only [Catalog.set]
    rw [if_pos trivial]

/-- A non-index walk entry writes exactly its own URL. -/
theorem addFile_nonindex_writes (fs : FS)
    (guess_type : String → Option String × Option String) (cfg : Config)
    (root pfx : String) (files : Catalog) (relpath : String)
    (hEnd : strEndsWith (pfx ++ relpath) cfg.index_file = false) :
    addFile fs guess_type cfg root pfx files relpath (pfx ++ relpath)
      = some (get_static_file fs guess_type cfg (root ++ "/" ++ relpath) (pfx ++ relpath)) := by
  unfold addFile
  simp only [hEnd, Bool.false_eq_true, if_false]
  simp only [Catalog.set]
  rw [if_pos trivial]

/-- C1 (amended): `add_files` does *not* skip `.gz` files.  A walked file
ending in `.gz` receives its own direct `Asset` entry keyed by its own
URL path (no later walk entry rewriting that key), *and* — the half of
the claim that does hold — whenever `<path>.gz` exists, the descriptor
built for `<path>` records it as the compressed variant. -/
theorem gz_direct_entry_amended (fs : FS)
    (guess_type : String → Option String × Option String) (cfg : Config)
    (root : String) (pfx : Option String) (l₁ l₂ : List String) (r : String)
    (hidx : cfg.index_file = "index.html")
    (hgz : strEndsWith r ".gz" = true)
    (hnotouch : ∀ x ∈ l₂,
      (normalizePrefix pfx ++ r) ∉ urlsWritten cfg (normalizePrefix pfx) x) :
    whiteNoiseFiles fs guess_type cfg root pfx (l₁ ++ r :: l₂) (normalizePrefix pfx ++ r)
        = some (get_static_file fs guess_type cfg (root ++ "/" ++ r) (normalizePrefix pfx ++ r))
    ∧ (∀ (path : String) (imm : Bool), fs.isfile (path ++ GZIP_SUFFIX) = true →
        (StaticFile.make fs guess_type cfg path imm).gzip_path = some (path ++ GZIP_SUFFIX)
        ∧ (StaticFile.make fs guess_type cfg path imm).gzip_headers ≠ none) := by
  constructor
  · unfold whiteNoiseFiles add_files
    rw [List.foldl_append, List.foldl_cons,
      foldl_addFile_lookup_notMem fs guess_type cfg root (normalizePrefix pfx) l₂ _ _ hnotouch]
    apply addFile_nonindex_writes
    rw [hidx]
    apply strEndsWith_false_of_last_ne _ ".gz" "index.html"
    · exact strEndsWith_append_left _ _ _ hgz
    · decide
    · decide
    · decide
  · intro path imm hfile
    obtain ⟨H, hH, hP, hG, hpath⟩ := make_gzip_fields fs guess_type cfg path imm hfile
    refine ⟨hP, ?_⟩
    rw [hG]
    simp

theorem gz_direct_entry_amended_witness :
    whiteNoiseFiles exampleFS exampleGuess CONFIG "/root" none
        (["foo.css"] ++ "foo.css.gz" :: ["docs/index.html", "index.html"])
        (normalizePrefix none ++ "foo.css.gz")
      = some (get_static_file exampleFS exampleGuess CONFIG ("/root" ++ "/" ++ "foo.css.gz")
          (normalizePrefix none ++ "foo.css.gz"))
    ∧ (StaticFile.make exampleFS exampleGuess CONFIG "/root/foo.css" false).gzip_path
      = some ("/root/foo.css" ++ GZIP_SUFFIX) := by
  have h := gz_direct_entry_amended exampleFS exampleGuess CONFIG "/root" none
    ["foo.css"] ["docs/index.html", "index.html"] "foo.css.gz"
    (by rfl) (by decide) (by decide)
  exact ⟨h.1, (h.2 "/root/foo.css" false (by decide)).1⟩

/-- C1, as stated, is false on the code: in the example tree the walk
discovers `foo.css.gz`, and the catalog *does* hold a direct entry keyed
by that file's own URL path `/foo.css.gz` (a `StaticFile` built on the
`.gz` file itself), rather than only the compressed-variant slot of
`/foo.css`. -/
theorem gz_direct_entry_counterexample :
    strEndsWith "foo.css.gz" ".gz" = true
    ∧ exampleCatalog "/foo.css.gz"
        = some (.static (StaticFile.make exampleFS exampleGuess CONFIG "/root/foo.css.gz" false))
    ∧ exampleCatalog "/foo.css.gz" ≠ none :=
  ⟨by decide, by decide, by decide⟩

/-- C5: index expansion.  (i) For a walked file `d ++ "/index.html"`
(non-empty stripped path — it starts with the prefix, hence with `/`),
the catalog maps the no-slash alias to a `Redirect` at the with-slash
alias, and both the with-slash alias and the full URL to `Asset` entries
built on the same file, provided no later walk entry rewrites those keys.
(ii) For `index.html` at the root itself (default prefix, stripped
no-slash path empty), the empty-string key receives an `Asset` directly,
not a `Redirect`, and `/` and `/index.html` are `Asset`s for the same
file. -/
theorem index_expansion (fs : FS)
    (guess_type : String → Option String × Option String) (cfg : Config)
    (root : String) (hidx : cfg.index_file = "index.html") :
    (∀ (pfx : Option String) (d : String) (l₁ l₂ : List String),
      (∀ x ∈ l₂, ∀ k ∈ [normalizePrefix pfx ++ d, (normalizePrefix pfx ++ d) ++ "/",
          normalizePrefix pfx ++ (d ++ "/index.html")],
        k ∉ urlsWritten cfg (normalizePrefix pfx) x) →
      whiteNoiseFiles fs guess_type cfg root pfx (l₁ ++ (d ++ "/index.html") :: l₂)
          (normalizePrefix pfx ++ d)
        = some (.redirect ((normalizePrefix pfx ++ d) ++ "/"))
      ∧ whiteNoiseFiles fs guess_type cfg root pfx (l₁ ++ (d ++ "/index.html") :: l₂)
          ((normalizePrefix pfx ++ d) ++ "/")
        = some (get_static_file fs guess_type cfg (root ++ "/" ++ (d ++ "/index.html"))
            ((normalizePrefix pfx ++ d) ++ "/"))
      ∧ whiteNoiseFiles fs guess_type cfg root pfx (l₁ ++ (d ++ "/index.html") :: l₂)
          (normalizePrefix pfx ++ (d ++ "/index.html"))
        = some (get_static_file fs guess_type cfg (root ++ "/" ++ (d ++ "/index.html"))
            (normalizePrefix pfx ++ (d ++ "/index.html"))))
    ∧ (∀ (l₁ l₂ : List String),
      (∀ x ∈ l₂, ∀ k ∈ [("" : String), "/", "/index.html"], k ∉ urlsWritten cfg "/" x) →
      whiteNoiseFiles fs guess_type cfg root none (l₁ ++ "index.html" :: l₂) ""
        = some (get_static_file fs guess_type cfg (root ++ "/" ++ "index.html") "")
      ∧ whiteNoiseFiles fs guess_type cfg root none (l₁ ++ "index.html" :: l₂) "/"
        = some (get_static_file fs guess_type cfg (root ++ "/" ++ "index.html") "/")
      ∧ whiteNoiseFiles fs guess_type cfg root none (l₁ ++ "index.html" :: l₂) "/index.html"
        = some (get_static_file fs guess_type cfg (root ++ "/" ++ "index.html") "/index.html")) := by
  have lone : ("/" : String).length = 1 := rfl
  constructor
  · intro pfx d l₁ l₂ hdisj
    have hassoc : normalizePrefix pfx ++ (d ++ "/index.html")
        = (normalizePrefix pfx ++ d) ++ "/index.html" := (String.append_assoc _ _ _).symm
    have hsplit : ("/index.html" : String) = "/" ++ "index.html" := rfl
    have hassoc2 : (normalizePrefix pfx ++ d) ++ "/index.html"
        = ((normalizePrefix pfx ++ d) ++ "/") ++ "index.html" := by
      rw [hsplit, ← String.append_assoc]
    have l11 : ("/index.html" : String).length = 11 := rfl
    have hlen : (normalizePrefix pfx ++ (d ++ "/index.html")).length
        = (normalizePrefix pfx ++ d).length + 11 := by
      rw [hassoc, String.length_append, l11]
    have hns : strTake (normalizePrefix pfx ++ (d ++ "/index.html"))
        ((normalizePrefix pfx ++ (d ++ "/index.html")).length - ("index.html" : String).length - 1)
        = normalizePrefix pfx ++ d := by
      rw [hlen]
      have harith : (normalizePrefix pfx ++ d).length + 11 - ("index.html" : String).length - 1
          = (normalizePrefix pfx ++ d).length := by
        show (normalizePrefix pfx ++ d).length + 11 - 10 - 1 = (normalizePrefix pfx ++ d).length
        omega
      rw [harith, hassoc]
      exact strTake_append_left _ _
    have hws : strTake (normalizePrefix pfx ++ (d ++ "/index.html"))
        ((normalizePrefix pfx ++ (d ++ "/index.html")).length - ("index.html" : String).length)
        = (normalizePrefix pfx ++ d) ++ "/" := by
      rw [hlen]
      have harith : (normalizePrefix pfx ++ d).length + 11 - ("index.html" : String).length
          = ((normalizePrefix pfx ++ d) ++ "/").length := by
        rw [String.length_append (normalizePrefix pfx ++ d) "/", lone]
        show (normalizePrefix pfx ++ d).length + 11 - 10 = (normalizePrefix pfx ++ d).length + 1
        omega
      rw [harith, hassoc, hassoc2]
      exact strTake_append_left _ _
    have hEnd : strEndsWith (normalizePrefix pfx ++ (d ++ "/index.html")) cfg.index_file
        = true := by
      rw [hidx, hassoc, hassoc2]
      exact strEndsWith_append _ _
    have hne : normalizePrefix pfx ++ d ≠ "" := by
      obtain ⟨rest, hP⟩ := normalizePrefix_head pfx
      intro h
      have hdata := congrArg String.data h
      rw [String.data_append, hP] at hdata
      simp at hdata
    have hne1 : normalizePrefix pfx ++ d ≠ (normalizePrefix pfx ++ d) ++ "/" := by
      intro h
      have hl := congrArg String.length h
      rw [String.length_append (normalizePrefix pfx ++ d) "/", lone] at hl
      omega
    have hne2 : normalizePrefix pfx ++ d ≠ normalizePrefix pfx ++ (d ++ "/index.html") := by
      intro h
      have hl := congrArg String.length h
      rw [hlen] at hl
      omega
    have hne3 : (normalizePrefix pfx ++ d) ++ "/"
        ≠ normalizePrefix pfx ++ (d ++ "/index.html") := by
      intro h
      have hl := congrArg String.length h
      rw [hlen, String.length_append (normalizePrefix pfx ++ d) "/", lone] at hl
      omega
    have hW := addFile_index_writes fs guess_type cfg root (normalizePrefix pfx)
      (List.foldl (addFile fs guess_type cfg root (normalizePrefix pfx)) (fun _ => none) l₁)
      (d ++ "/index.html")
      hEnd (by rw [hidx, hns]; exact hne) (by rw [hidx, hns, hws]; exact hne1)
      (by rw [hidx, hns]; exact hne2) (by rw [hidx, hws]; exact hne3)
    rw [hidx, hns, hws] at hW
    have hd1 : ∀ x ∈ l₂, (normalizePrefix pfx ++ d)
        ∉ urlsWritten cfg (normalizePrefix pfx) x :=
      fun x hx => hdisj x hx _ (by simp)
    have hd2 : ∀ x ∈ l₂, ((normalizePrefix pfx ++ d) ++ "/")
        ∉ urlsWritten cfg (normalizePrefix pfx) x :=
      fun x hx => hdisj x hx _ (by simp)
    have hd3 : ∀ x ∈ l₂, (normalizePrefix pfx ++ (d ++ "/index.html"))
        ∉ urlsWritten cfg (normalizePrefix pfx) x :=
      fun x hx => hdisj x hx _ (by simp)
    unfold whiteNoiseFiles add_files
    rw [List.foldl_append, List.foldl_cons]
    refine ⟨?_, ?_, ?_⟩
    · rw [foldl_addFile_lookup_notMem fs guess_type cfg root (normalizePrefix pfx) l₂ _ _ hd1]
      exact hW.1
    · rw [foldl_addFile_lookup_notMem fs guess_type cfg root (normalizePrefix pfx) l₂ _ _ hd2]
      exact hW.2.1
    · rw [foldl_addFile_lookup_notMem fs guess_type cfg root (normalizePrefix pfx) l₂ _ _ hd3]
      exact hW.2.2
  · intro l₁ l₂ hdisj
    have hPn : normalizePrefix none = "/" := rfl
    have hW : ∀ files : Catalog,
        addFile fs guess_type cfg root "/" files "index.html" ""
          = some (get_static_file fs guess_type cfg (root ++ "/" ++ "index.html") "")
        ∧ addFile fs guess_type cfg root "/" files "index.html" "/"
          = some (get_static_file fs guess_type cfg (root ++ "/" ++ "index.html") "/")
        ∧ addFile fs guess_type cfg root "/" files "index.html" "/index.html"
          = some (get_static_file fs guess_type cfg (root ++ "/" ++ "index.html")
              ("/" ++ "index.html")) := by
      intro files
      have c1 : strEndsWith (("/" : String) ++ "index.html") cfg.index_file = true := by
        rw [hidx]
        decide
      have c2 : strTake (("/" : String) ++ "index.html")
          ((("/" : String) ++ "index.html").length - cfg.index_file.length - 1) = "" := by
        rw [hidx]
        decide
      have c3 : strTake (("/" : String) ++ "index.html")
          ((("/" : String) ++ "index.html").length - cfg.index_file.length) = "/" := by
        rw [hidx]
        decide
      unfold addFile
      simp only [c1, if_true, c2, c3]
      refine ⟨?_, ?_, ?_⟩ <;> simp [Catalog.set]
    have hd1 : ∀ x ∈ l₂, ("" : String) ∉ urlsWritten cfg "/" x :=
      fun x hx => hdisj x hx _ (by simp)
    have hd2 : ∀ x ∈ l₂, ("/" : String) ∉ urlsWritten cfg "/" x :=
      fun x hx => hdisj x hx _ (by simp)
    have hd3 : ∀ x ∈ l₂, ("/index.html" : String) ∉ urlsWritten cfg "/" x :=
      fun x hx => hdisj x hx _ (by simp)
    unfold whiteNoiseFiles add_files
    rw [hPn, List.foldl_append, List.foldl_cons]
    refine ⟨?_, ?_, ?_⟩
    · rw [foldl_addFile_lookup_notMem fs guess_type cfg root "/" l₂ _ _ hd1]
      exact (hW _).1
    · rw [foldl_addFile_lookup_notMem fs guess_type cfg root "/" l₂ _ _ hd2]
      exact (hW _).2.1
    · rw [foldl_addFile_lookup_notMem fs guess_type cfg root "/" l₂ _ _ hd3]
      exact (hW _).2.2

theorem index_expansion_witness :
    exampleCatalog "/docs" = some (.redirect "/docs/")
    ∧ exampleCatalog "/docs/"
      = some (get_static_file exampleFS exampleGuess CONFIG
          ("/root" ++ "/" ++ ("docs" ++ "/index.html")) (("/" ++ "docs") ++ "/"))
    ∧ exampleCatalog ""
      = some (get_static_file exampleFS exampleGuess CONFIG
          ("/root" ++ "/" ++ "index.html") "") := by
  have hA := (index_expansion exampleFS exampleGuess CONFIG "/root" (by rfl)).1
    none "docs" ["foo.css", "foo.css.gz"] ["index.html"] (by decide)
  have hB := (index_expansion exampleFS exampleGuess CONFIG "/root" (by rfl)).2
    ["foo.css", "foo.css.gz", "docs/index.html"] [] (by decide)
  refine ⟨?_, ?_, ?_⟩
  · exact hA.1
  · exact hA.2.1
  · exact hB.1

end WhiteNoiseModel
